import Mathlib

/-!
Verification of the Workflow Engine specification of the Agentic-Examples
repository.  The repository's scripts drive agent loops through a small
graph-based step executor (`lib.state_machine`: `StateMachine`, `Step`,
`EntryPoint`, `Termination`, `Run`).  The engine module itself is not part
of the provided sources (only its callers are), so the engine is modelled
from the specification's data model (§3) and execution algorithm (§4.1),
while the concrete step functions and routers exercised below
(`step_input`, `step_double`, `increment_counter`, `check_counter_router`)
are translated from `udacity/module_01_extending_tools/stateMgmtExample.py`.
-/

namespace Workflow

/-- Python-style values carried in workflow state: ints, strings, booleans,
`None`, lists and string-keyed dicts (modelled as association lists in
insertion order, mirroring Python's ordered dicts). -/
inductive Value where
  | none : Value
  | int : Int → Value
  | str : String → Value
  | bool : Bool → Value
  | list : List Value → Value
  | dict : List (String × Value) → Value

/-- The State is an ordered mapping from field name to value
(spec §3: "an ordered mapping of named fields to values"). -/
abbrev WState := List (String × Value)

/-- Lookup of a field in the state (first binding wins; bindings are kept
unique by `setKey`, matching Python dicts). -/
def getKey (s : WState) (k : String) : Option Value :=
  match s with
  | [] => Option.none
  | p :: rest => if p.1 == k then some p.2 else getKey rest k

/-- Overwrite one key in the state: if the key is present its binding is
replaced in place, otherwise the binding is appended (Python dict
assignment semantics, preserving insertion order). -/
def setKey (s : WState) (k : String) (v : Value) : WState :=
  match s with
  | [] => [(k, v)]
  | p :: rest => if p.1 == k then (k, v) :: rest else p :: setKey rest k v

/-- Modelled from the spec: the missing engine's state merge (§4.1 step 2c)
"Merge the returned partial mapping into `state` with shallow overwrite
semantics: each key in the partial mapping replaces the corresponding key
in `state`; keys not mentioned are untouched." -/
def mergeUpdate (s : WState) (upd : WState) : WState :=
  upd.foldl (fun acc p => setKey acc p.1 p.2) s

/-- An opaque application exception escaping a step action or a router
(e.g. a Python `KeyError`); the engine never catches these (spec §7). -/
structure PyExn where
  msg : String
deriving Repr, DecidableEq

/-- Modelled from the spec: the missing engine's error taxonomy (§7):
structural `GraphError`, `StepContractError` for a non-mapping action
result, `RoutingError` for a router breaking its contract, and propagated
application exceptions.  `outOfFuel` is an artifact of the embedding: the
real engine does not bound iteration (§4.1, Cycles), so the model takes a
fuel parameter and reports exhaustion instead of diverging. -/
inductive EngineError where
  | graphError (msg : String)
  | stepContractError
  | routingError
  | appError (e : PyExn)
  | outOfFuel
deriving Repr, DecidableEq

/-- A step action, invoked with the state alone or with the state and the
shared resources, according to the declared dependency (spec §4.1 step 2b).
It returns a `Value` (checked to be a mapping by the engine) or raises. -/
inductive ActionFn (ρ : Type) where
  | stateOnly : (WState → Except PyExn Value) → ActionFn ρ
  | withRes : (WState → ρ → Except PyExn Value) → ActionFn ρ

/-- Node kinds: the unique entry marker, ordinary steps, and termination
markers (spec §3). -/
inductive StepKind where
  | entry
  | normal
  | termination
deriving Repr, DecidableEq, BEq

/-- A Step: unique name plus an optional action (entry and termination
markers have none) (spec §3). -/
structure Step (ρ : Type) where
  name : String
  kind : StepKind
  action : Option (ActionFn ρ)

/-- Node constructor for the entry marker, `EntryPoint()` (spec §6). -/
def EntryPoint (ρ : Type) : Step ρ :=
  ⟨"__entry__", StepKind.entry, Option.none⟩

/-- Node constructor for a termination marker, `Termination()` (spec §6). -/
def Termination (ρ : Type) : Step ρ :=
  ⟨"__termination__", StepKind.termination, Option.none⟩

/-- Node constructor for an ordinary step, `Step(name, action)` (spec §6). -/
def mkStep (ρ : Type) (name : String) (a : ActionFn ρ) : Step ρ :=
  ⟨name, StepKind.normal, some a⟩

/-- A Transition: the single outgoing edge record of a source step, with
its ordered target list and optional router (spec §3).  Routers are
modelled as returning the chosen step's name (names are unique within a
graph) and may raise like any Python callable. -/
structure Transition (ρ : Type) where
  source : String
  targets : List String
  condition : Option (WState → Except PyExn String)

/-- The workflow graph: declared schema field names (documentation only,
not enforced at runtime, spec §6), the registered steps and the transition
table (spec §4.1). -/
structure StateMachine (ρ : Type) where
  schema : List String
  steps : List (Step ρ)
  transitions : List (Transition ρ)

/-- Graph constructor `StateMachine(schema)`: a fresh graph with no steps and no
transitions (spec §6). -/
def StateMachine.new (ρ : Type) (schema : List String) : StateMachine ρ :=
  ⟨schema, [], []⟩

/-- Whether a list of step names is collision-free. -/
def namesDistinct : List String → Bool
  | [] => true
  | n :: rest => !rest.contains n && namesDistinct rest

/-- Modelled from the spec: the missing engine's `add_steps` (§4.1):
registers steps, failing with `GraphError` "if a name collides, if no
EntryPoint is present, or if no Termination is present". -/
def add_steps (m : StateMachine ρ) (steps : List (Step ρ)) :
    Except EngineError (StateMachine ρ) :=
  let all := m.steps ++ steps
  let names := all.map Step.name
  if namesDistinct names then
    if all.any (fun s => s.kind == StepKind.entry) then
      if all.any (fun s => s.kind == StepKind.termination) then
        Except.ok ⟨m.schema, all, m.transitions⟩
      else Except.error (EngineError.graphError ("no Termination"))
    else Except.error (EngineError.graphError ("no EntryPoint"))
  else Except.error (EngineError.graphError ("name collision"))

/-- Modelled from the spec: the missing engine's `connect` (§4.1):
registers the single outgoing Transition for `source`, failing with
`GraphError` "if `source` already has an outgoing Transition, if `targets`
is a list with length > 1 and `condition` is omitted, or if any referenced
Step was not registered via `add_steps`". -/
def connect (m : StateMachine ρ) (source : Step ρ) (targets : List (Step ρ))
    (condition : Option (WState → Except PyExn String)) :
    Except EngineError (StateMachine ρ) :=
  if m.transitions.any (fun t => t.source == source.name) then
    Except.error (EngineError.graphError ("double-registered outgoing edge"))
  else if targets.length > 1 && condition.isNone then
    Except.error (EngineError.graphError ("multiple targets need a condition"))
  else if (source :: targets).any
      (fun s => !(m.steps.any (fun s' => s'.name == s.name))) then
    Except.error (EngineError.graphError ("unresolved node reference"))
  else
    Except.ok ⟨m.schema, m.steps,
      m.transitions ++ [⟨source.name, targets.map Step.name, condition⟩]⟩

/-- One per-step state capture of a Run (spec §3). -/
structure Snapshot where
  step_name : String
  state : WState

/-- The execution record of one `run()` call: its ordered, append-only
snapshot list (spec §3). -/
structure Run where
  snapshots : List Snapshot

/-- Accessor `get_final_state()`: the state payload of the last snapshot
(spec §4.3); `Option.none` only on an empty snapshot list, which a
completed run never produces. -/
def Run.get_final_state (r : Run) : Option WState :=
  (r.snapshots.getLast?).map Snapshot.state

/-- The transition registered for a step name, if any. -/
def lookupTransition (m : StateMachine ρ) (name : String) : Option (Transition ρ) :=
  m.transitions.find? (fun t => t.source == name)

/-- The registered step with the given name, if any. -/
def findStep (m : StateMachine ρ) (name : String) : Option (Step ρ) :=
  m.steps.find? (fun s => s.name == name)

/-- Modelled from the spec: the missing engine's action invocation (§4.1
step 2b-2c): invoke with resources exactly when the step declared the
dependency; an entry/termination marker contributes an empty update; a
non-mapping result is a `StepContractError`; an exception raised by the
action propagates uncaught (§7). -/
def invokeAction (res : ρ) (s : Step ρ) (state : WState) :
    Except EngineError WState :=
  match s.action with
  | Option.none => Except.ok []
  | some (ActionFn.stateOnly f) =>
    match f state with
    | Except.error e => Except.error (EngineError.appError e)
    | Except.ok (Value.dict u) => Except.ok u
    | Except.ok _ => Except.error EngineError.stepContractError
  | some (ActionFn.withRes f) =>
    match f state res with
    | Except.error e => Except.error (EngineError.appError e)
    | Except.ok (Value.dict u) => Except.ok u
    | Except.ok _ => Except.error EngineError.stepContractError

/-- Modelled from the spec: the missing engine's next-node resolution
(§4.1 step 2e): an unconditional edge has its single target; a conditional
edge evaluates `condition(state)` and fails with `RoutingError` if the
returned step is not among the declared targets. -/
def nextOf (m : StateMachine ρ) (t : Transition ρ) (state : WState) :
    Except EngineError (Step ρ) :=
  match t.condition with
  | Option.none =>
    match t.targets with
    | [tname] =>
      match findStep m tname with
      | some s => Except.ok s
      | Option.none => Except.error (EngineError.graphError ("unresolved node reference"))
    | _ => Except.error (EngineError.graphError ("invalid transition"))
  | some c =>
    match c state with
    | Except.error e => Except.error (EngineError.appError e)
    | Except.ok chosen =>
      if t.targets.contains chosen then
        match findStep m chosen with
        | some s => Except.ok s
        | Option.none => Except.error (EngineError.graphError ("unresolved node reference"))
      else Except.error EngineError.routingError

/-- Modelled from the spec: the missing engine's execution loop (§4.1
steps 2-3), with explicit fuel standing in for the engine's unbounded
iteration.  A termination node appends its final snapshot and stops; any
other node has its action invoked, the returned mapping merged with
shallow overwrite, the post-merge state snapshotted, and the next node
resolved through the transition table, failing with `GraphError` on a
dangling step.  The actionless EntryPoint marker never enters this loop
(see `StateMachine.run`) and produces no snapshot, matching the spec's P2
census of exactly [A, B, Termination] for an Entry → A → B → Termination
run. -/
def runAux (m : StateMachine ρ) (res : ρ) :
    Nat → Step ρ → WState → List Snapshot → Except EngineError Run
  | 0, _, _, _ => Except.error EngineError.outOfFuel
  | fuel + 1, cur, state, snaps =>
    if cur.kind = StepKind.termination then
      Except.ok ⟨snaps ++ [⟨cur.name, state⟩]⟩
    else
      match invokeAction res cur state with
      | Except.error e => Except.error e
      | Except.ok upd =>
        let state' := mergeUpdate state upd
        let snaps' := snaps ++ [⟨cur.name, state'⟩]
        match lookupTransition m cur.name with
        | Option.none => Except.error (EngineError.graphError ("dangling step"))
        | some t =>
          match nextOf m t state' with
          | Except.error e => Except.error e
          | Except.ok next => runAux m res fuel next state' snaps'

/-- Modelled from the spec: the missing engine's `run(initial_state,
resources)` (§4.1): the EntryPoint marks the unique starting node through
its single outgoing edge (§3), so run resolves the entry's transition on
the initial state and hands the loop its target; the actionless entry
marker itself contributes no snapshot (spec §8 P2). -/
def StateMachine.run (m : StateMachine ρ) (init : WState) (res : ρ)
    (fuel : Nat) : Except EngineError Run :=
  match m.steps.find? (fun s => s.kind == StepKind.entry) with
  | Option.none => Except.error (EngineError.graphError ("no EntryPoint"))
  | some e =>
    match lookupTransition m e.name with
    | Option.none => Except.error (EngineError.graphError ("dangling step"))
    | some t =>
      match nextOf m t init with
      | Except.error err => Except.error err
      | Except.ok first => runAux m res fuel first init []

end Workflow

namespace Workflow

/-- Step logic `step_input` from `stateMgmtExample.py`: increment the input value,
returning the partial update with the result in `output`
(a missing or non-integer `input` raises, as in Python). -/
def step_input (state : WState) : Except PyExn Value :=
  match getKey state ("input") with
  | some (Value.int n) => Except.ok (Value.dict [("output", Value.int (n + 1))])
  | some _ => Except.error ⟨"TypeError"⟩
  | Option.none => Except.error ⟨"KeyError: input"⟩

/-- Step logic `step_double` from `stateMgmtExample.py`: double the previous output,
returning the partial update with the doubled value in `output`. -/
def step_double (state : WState) : Except PyExn Value :=
  match getKey state ("output") with
  | some (Value.int n) => Except.ok (Value.dict [("output", Value.int (n * 2))])
  | some _ => Except.error ⟨"TypeError"⟩
  | Option.none => Except.error ⟨"KeyError: output"⟩

/-- Step logic `increment_counter` from `stateMgmtExample.py`: increment the counter
value, returning the partial update with the incremented counter. -/
def increment_counter (state : WState) : Except PyExn Value :=
  match getKey state ("count") with
  | some (Value.int n) => Except.ok (Value.dict [("count", Value.int (n + 1))])
  | some _ => Except.error ⟨"TypeError"⟩
  | Option.none => Except.error ⟨"KeyError: count"⟩

/-- Router `check_counter_router` from `stateMgmtExample.py`: route to the
Termination once `count >= max_value`, else back to `increment`. -/
def check_counter_router (state : WState) : Except PyExn String :=
  match getKey state ("count"), getKey state ("max_value") with
  | some (Value.int c), some (Value.int mv) =>
    Except.ok (if c ≥ mv then ("__termination__") else ("increment"))
  | _, _ => Except.error ⟨"KeyError"⟩

/-- Step object `Step("input", step_input)` of `demo_basic_workflow`. -/
def input_step : Step Unit := mkStep Unit ("input") (ActionFn.stateOnly step_input)

/-- Step object `Step("double", step_double)` of `demo_basic_workflow`. -/
def double_step : Step Unit := mkStep Unit ("double") (ActionFn.stateOnly step_double)

/-- Step object `Step("increment", increment_counter)` of
`demo_routing_and_loops`. -/
def increment_step : Step Unit :=
  mkStep Unit ("increment") (ActionFn.stateOnly increment_counter)

/-- The linear workflow of `demo_basic_workflow` (`stateMgmtExample.py`):
entry → input → double → termination, built through `add_steps` and
`connect` exactly as the script does. -/
def basic_workflow : Except EngineError (StateMachine Unit) := do
  let workflow := StateMachine.new Unit ["input", "output"]
  let entry := EntryPoint Unit
  let t := Termination Unit
  let workflow ← add_steps workflow [entry, input_step, double_step, t]
  let workflow ← connect workflow entry [input_step] Option.none
  let workflow ← connect workflow input_step [double_step] Option.none
  connect workflow double_step [t] Option.none

/-- The cyclic workflow of `demo_routing_and_loops` (`stateMgmtExample.py`):
entry → increment, and increment → [increment, termination] guarded by
`check_counter_router`. -/
def counter_workflow : Except EngineError (StateMachine Unit) := do
  let workflow := StateMachine.new Unit ["count", "max_value"]
  let entry := EntryPoint Unit
  let t := Termination Unit
  let workflow ← add_steps workflow [entry, increment_step, t]
  let workflow ← connect workflow entry [increment_step] Option.none
  connect workflow increment_step [increment_step, t] (some check_counter_router)

/-- The graph `counter_workflow` successfully builds to. -/
def counter_machine : StateMachine Unit :=
  match counter_workflow with
  | Except.ok m => m
  | Except.error _ => StateMachine.new Unit []

/-- The graph `basic_workflow` successfully builds to. -/
def basic_machine : StateMachine Unit :=
  match basic_workflow with
  | Except.ok m => m
  | Except.error _ => StateMachine.new Unit []

/-- The run of `demo_routing_and_loops`: initial state
`{"count": 0, "max_value": 3}` (ample fuel: the real engine is unbounded). -/
def counter_run : Except EngineError Run :=
  StateMachine.run counter_machine
    [("count", Value.int 0), ("max_value", Value.int 3)] () 20

/-- The run of `demo_basic_workflow`: initial state `{"input": 4}`. -/
def basic_run : Except EngineError Run :=
  StateMachine.run basic_machine [("input", Value.int 4)] () 20

/-- The Run that the cyclic counter workflow produces: one snapshot per
increment execution (counts 1, 2, 3) and the Termination snapshot; the
actionless EntryPoint contributes none. -/
def counter_run_expected : Run :=
  ⟨[⟨"increment", [("count", Value.int 1), ("max_value", Value.int 3)]⟩,
    ⟨"increment", [("count", Value.int 2), ("max_value", Value.int 3)]⟩,
    ⟨"increment", [("count", Value.int 3), ("max_value", Value.int 3)]⟩,
    ⟨"__termination__", [("count", Value.int 3), ("max_value", Value.int 3)]⟩]⟩

/-- The Run that the linear basic workflow produces from `{"input": 4}`,
the spec's P2 census [input, double, Termination]: note the initial state
lacks the schema field `output` until `step_input` first produces it. -/
def basic_run_expected : Run :=
  ⟨[⟨"input", [("input", Value.int 4), ("output", Value.int 5)]⟩,
    ⟨"double", [("input", Value.int 4), ("output", Value.int 10)]⟩,
    ⟨"__termination__", [("input", Value.int 4), ("output", Value.int 10)]⟩]⟩

/-- An action body returning an empty partial update. -/
def noop_action : WState → Except PyExn Value := fun _ => Except.ok (Value.dict [])

/-- A plain step used by the structural demos below. -/
def step_a : Step Unit := mkStep Unit ("a") (ActionFn.stateOnly noop_action)

/-- A graph exercising P6: step "a" is registered via `add_steps` but
never given an outgoing `connect`. -/
def dangling_workflow : Except EngineError (StateMachine Unit) := do
  let m := StateMachine.new Unit []
  let m ← add_steps m [EntryPoint Unit, step_a, Termination Unit]
  connect m (EntryPoint Unit) [step_a] Option.none

/-- The graph `dangling_workflow` successfully builds to. -/
def dangling_machine : StateMachine Unit :=
  match dangling_workflow with
  | Except.ok m => m
  | Except.error _ => StateMachine.new Unit []

/-- Running the dangling graph: execution reaches "a" and finds no
outgoing transition. -/
def dangling_run : Except EngineError Run :=
  StateMachine.run dangling_machine [] () 20

/-- A router breaking the routing contract (P4): it returns a step name
that is not among the transition's declared targets. -/
def bad_router : WState → Except PyExn String := fun _ => Except.ok ("nowhere")

/-- A graph whose conditional transition out of "a" carries `bad_router`. -/
def bad_router_workflow : Except EngineError (StateMachine Unit) := do
  let m := StateMachine.new Unit []
  let m ← add_steps m [EntryPoint Unit, step_a, Termination Unit]
  let m ← connect m (EntryPoint Unit) [step_a] Option.none
  connect m step_a [step_a, Termination Unit] (some bad_router)

/-- The graph `bad_router_workflow` successfully builds to. -/
def bad_router_machine : StateMachine Unit :=
  match bad_router_workflow with
  | Except.ok m => m
  | Except.error _ => StateMachine.new Unit []

/-- Running the bad-router graph from the empty state. -/
def bad_router_run : Except EngineError Run :=
  StateMachine.run bad_router_machine [] () 20

/-- An action declaring the resources dependency, in the style of
`retrieve` in `rag1.py`: it derives its partial update from the injected
resource handle. -/
def use_resource_action : WState → String → Except PyExn Value :=
  fun _ r => Except.ok (Value.dict [("got", Value.str r)])

/-- The step carrying `use_resource_action`. -/
def resource_step : Step String :=
  ⟨"use_res", StepKind.normal, some (ActionFn.withRes use_resource_action)⟩

/-- A linear graph entry → use_res → termination over a String resource. -/
def resource_workflow : Except EngineError (StateMachine String) := do
  let m := StateMachine.new String ["got"]
  let m ← add_steps m [EntryPoint String, resource_step, Termination String]
  let m ← connect m (EntryPoint String) [resource_step] Option.none
  connect m resource_step [Termination String] Option.none

/-- The graph `resource_workflow` successfully builds to. -/
def resource_machine : StateMachine String :=
  match resource_workflow with
  | Except.ok m => m
  | Except.error _ => StateMachine.new String []

/-- One recorded action invocation: whether the step declared the shared
resources dependency, and the resources argument the invocation received
(`Option.none` when the action was invoked with the state alone). -/
structure CallRec (ρ : Type) where
  declared : Bool
  given : Option ρ

/-- Instrumented copy of `runAux` that additionally records, for every
action invocation, which resources argument the action received; its
first component is proved below to coincide with `runAux`. -/
def runAuxT (m : StateMachine ρ) (res : ρ) :
    Nat → Step ρ → WState → List Snapshot → List (CallRec ρ) →
    Except EngineError Run × List (CallRec ρ)
  | 0, _, _, _, tr => (Except.error EngineError.outOfFuel, tr)
  | fuel + 1, cur, state, snaps, tr =>
    if cur.kind = StepKind.termination then
      (Except.ok ⟨snaps ++ [⟨cur.name, state⟩]⟩, tr)
    else
      let tr' := match cur.action with
        | Option.none => tr
        | some (ActionFn.stateOnly _) => tr ++ [⟨false, Option.none⟩]
        | some (ActionFn.withRes _) => tr ++ [⟨true, some res⟩]
      match invokeAction res cur state with
      | Except.error e => (Except.error e, tr')
      | Except.ok upd =>
        let state' := mergeUpdate state upd
        let snaps' := snaps ++ [⟨cur.name, state'⟩]
        match lookupTransition m cur.name with
        | Option.none => (Except.error (EngineError.graphError ("dangling step")), tr')
        | some t =>
          match nextOf m t state' with
          | Except.error e => (Except.error e, tr')
          | Except.ok next => runAuxT m res fuel next state' snaps' tr'

/-- Instrumented copy of `run`, also returning the invocation records. -/
def runT (m : StateMachine ρ) (init : WState) (res : ρ) (fuel : Nat) :
    Except EngineError Run × List (CallRec ρ) :=
  match m.steps.find? (fun s => s.kind == StepKind.entry) with
  | Option.none => (Except.error (EngineError.graphError ("no EntryPoint")), [])
  | some e =>
    match lookupTransition m e.name with
    | Option.none => (Except.error (EngineError.graphError ("dangling step")), [])
    | some t =>
      match nextOf m t init with
      | Except.error err => (Except.error err, [])
      | Except.ok first => runAuxT m res fuel first init [] []

/-- States of consecutive snapshots are related by a shallow-overwrite
merge of some partial update: the relation the execution loop maintains. -/
inductive MergeChain : WState → List Snapshot → Prop where
  | nil (s : WState) : MergeChain s []
  | cons (s : WState) (snap : Snapshot) (upd : WState) (rest : List Snapshot) :
      snap.state = mergeUpdate s upd → MergeChain snap.state rest →
      MergeChain s (snap :: rest)

/-- The given name belongs to a registered termination marker of the graph. -/
def isTerminationName (m : StateMachine ρ) (n : String) : Prop :=
  ∃ s ∈ m.steps, Step.name s = n ∧ Step.kind s = StepKind.termination

end Workflow

namespace Workflow

theorem mergeUpdate_nil (s : WState) : mergeUpdate s [] = s := rfl

theorem mergeUpdate_cons (s : WState) (p : String × Value) (rest : WState) :
    mergeUpdate s (p :: rest) = mergeUpdate (setKey s p.1 p.2) rest := rfl

theorem getKey_setKey_self (s : WState) (k : String) (v : Value) :
    getKey (setKey s k v) k = some v := by
  induction s with
  | nil => simp [setKey, getKey]
  | cons p rest ih =>
    by_cases h : p.1 = k
    · simp [setKey, getKey, h]
    · simp [setKey, getKey, h, ih]

theorem getKey_setKey_ne (s : WState) (k : String) (v : Value) (k' : String)
    (h : k' ≠ k) : getKey (setKey s k v) k' = getKey s k' := by
  have h2 : ¬(k = k') := fun e => h e.symm
  induction s with
  | nil => simp [setKey, getKey, h2]
  | cons p rest ih =>
    simp only [setKey]
    by_cases hp : p.1 = k
    · rw [if_pos (by simpa using hp)]
      simp only [getKey]
      rw [if_neg (by simpa using h2), if_neg (by simp [hp, h2])]
    · rw [if_neg (by simpa using hp)]
      simp only [getKey]
      by_cases hp' : p.1 = k'
      · rw [if_pos (by simpa using hp'), if_pos (by simpa using hp')]
      · rw [if_neg (by simpa using hp'), if_neg (by simpa using hp'), ih]

theorem getKey_mergeUpdate_none (s u : WState) (k : String)
    (h : getKey u k = Option.none) :
    getKey (mergeUpdate s u) k = getKey s k := by
  induction u generalizing s with
  | nil => rfl
  | cons p rest ih =>
    rw [mergeUpdate_cons]
    simp only [getKey] at h
    by_cases hp : p.1 = k
    · simp [hp] at h
    · rw [if_neg (by simpa using hp)] at h
      rw [ih _ h, getKey_setKey_ne _ _ _ _ (fun e => hp e.symm)]

theorem getKey_eq_none_of_not_mem (u : WState) (k : String)
    (h : k ∉ u.map Prod.fst) : getKey u k = Option.none := by
  induction u with
  | nil => rfl
  | cons p rest ih =>
    simp only [List.map_cons, List.mem_cons] at h
    push_neg at h
    simp only [getKey]
    rw [if_neg (by simpa using fun e => h.1 e.symm)]
    exact ih h.2

theorem getKey_mergeUpdate_some (s u : WState) (k : String) (v : Value)
    (hnd : (u.map Prod.fst).Nodup) (h : getKey u k = some v) :
    getKey (mergeUpdate s u) k = some v := by
  induction u generalizing s with
  | nil => simp [getKey] at h
  | cons p rest ih =>
    rw [mergeUpdate_cons]
    simp only [List.map_cons, List.nodup_cons] at hnd
    simp only [getKey] at h
    by_cases hp : p.1 = k
    · rw [if_pos (by simpa using hp)] at h
      have hrest : getKey rest k = Option.none :=
        getKey_eq_none_of_not_mem rest k (hp ▸ hnd.1)
      rw [getKey_mergeUpdate_none _ _ _ hrest, ← h, hp, getKey_setKey_self]
    · rw [if_neg (by simpa using hp)] at h
      exact ih _ hnd.2 h

theorem getKey_setKey_ne_none (s : WState) (k k' : String) (v : Value)
    (h : getKey s k ≠ Option.none) :
    getKey (setKey s k' v) k ≠ Option.none := by
  by_cases he : k = k'
  · subst he; rw [getKey_setKey_self]; simp
  · rw [getKey_setKey_ne _ _ _ _ he]; exact h

theorem getKey_mergeUpdate_ne_none (s u : WState) (k : String)
    (h : getKey s k ≠ Option.none) :
    getKey (mergeUpdate s u) k ≠ Option.none := by
  induction u generalizing s with
  | nil => exact h
  | cons p rest ih =>
    rw [mergeUpdate_cons]
    exact ih _ (getKey_setKey_ne_none _ _ _ _ h)

end Workflow

namespace Workflow

theorem nextOf_mem {ρ : Type} {m : StateMachine ρ} {t : Transition ρ}
    {st : WState} {s : Step ρ} (h : nextOf m t st = Except.ok s) :
    s ∈ m.steps := by
  unfold nextOf at h
  split at h
  · split at h
    · split at h
      · cases h
        exact List.mem_of_find?_eq_some (by assumption)
      · cases h
    · cases h
  · split at h
    · cases h
    · split at h
      · split at h
        · cases h
          exact List.mem_of_find?_eq_some (by assumption)
        · cases h
      · cases h

theorem runAux_ok_structure {ρ : Type} (m : StateMachine ρ) (res : ρ) :
    ∀ (fuel : Nat) (cur : Step ρ) (state : WState) (snaps : List Snapshot)
      (r : Run), cur ∈ m.steps →
      runAux m res fuel cur state snaps = Except.ok r →
      ∃ tail, r.snapshots = snaps ++ tail ∧ tail ≠ [] ∧
        MergeChain state tail ∧
        ∃ last, tail.getLast? = some last ∧ isTerminationName m last.step_name := by
  intro fuel
  induction fuel with
  | zero => intro cur state snaps r hmem h; cases h
  | succ n ih =>
    intro cur state snaps r hmem h
    rw [runAux] at h
    split at h
    case isTrue hterm =>
      cases h
      refine ⟨[⟨cur.name, state⟩], rfl, by simp, ?_, ?_⟩
      · exact MergeChain.cons state ⟨cur.name, state⟩ [] [] rfl (MergeChain.nil _)
      · exact ⟨⟨cur.name, state⟩, rfl, cur, hmem, rfl, hterm⟩
    case isFalse hterm =>
      cases hact : invokeAction res cur state with
      | error e => rw [hact] at h; cases h
      | ok upd =>
        rw [hact] at h
        simp only at h
        cases htr : lookupTransition m cur.name with
        | none => rw [htr] at h; cases h
        | some t =>
          rw [htr] at h
          simp only at h
          cases hnx : nextOf m t (mergeUpdate state upd) with
          | error e => rw [hnx] at h; simp only at h; cases h
          | ok next =>
            rw [hnx] at h
            simp only at h
            obtain ⟨tail, htail, hne, hchain, last, hlast, hterm'⟩ :=
              ih next (mergeUpdate state upd)
                (snaps ++ [⟨cur.name, mergeUpdate state upd⟩]) r (nextOf_mem hnx) h
            obtain ⟨b, l, rfl⟩ := List.exists_cons_of_ne_nil hne
            refine ⟨⟨cur.name, mergeUpdate state upd⟩ :: b :: l, ?_, by simp, ?_, last, ?_, hterm'⟩
            · rw [htail]; simp
            · exact MergeChain.cons state ⟨cur.name, mergeUpdate state upd⟩ upd _ rfl hchain
            · rw [List.getLast?_cons_cons]; exact hlast

theorem run_ok_structure {ρ : Type} (m : StateMachine ρ) (init : WState)
    (res : ρ) (fuel : Nat) (r : Run)
    (h : StateMachine.run m init res fuel = Except.ok r) :
    r.snapshots ≠ [] ∧ MergeChain init r.snapshots ∧
      ∃ last, r.snapshots.getLast? = some last ∧
        isTerminationName m last.step_name := by
  unfold StateMachine.run at h
  cases hfind : m.steps.find? (fun s => s.kind == StepKind.entry) with
  | none => rw [hfind] at h; cases h
  | some e =>
    rw [hfind] at h
    simp only at h
    cases htr : lookupTransition m e.name with
    | none => rw [htr] at h; simp only at h; cases h
    | some t =>
      rw [htr] at h
      simp only at h
      cases hnx : nextOf m t init with
      | error err => rw [hnx] at h; simp only at h; cases h
      | ok first =>
        rw [hnx] at h
        simp only at h
        obtain ⟨tail, htail, hne, hchain, last, hlast, hterm⟩ :=
          runAux_ok_structure m res fuel first init [] r (nextOf_mem hnx) h
        simp only [List.nil_append] at htail
        subst htail
        exact ⟨hne, hchain, last, hlast, hterm⟩

end Workflow

namespace Workflow

/-- Relation between consecutive states: the second is a shallow-overwrite
merge of some partial update into the first. -/
def mergeStepRel (a b : WState) : Prop := ∃ u, b = mergeUpdate a u

/-- Relation between states: every field present in the first is still
present (with some value) in the second. -/
def keepsFields (a b : WState) : Prop :=
  ∀ k, getKey a k ≠ Option.none → getKey b k ≠ Option.none

instance : IsTrans WState keepsFields :=
  ⟨fun _ _ _ hab hbc k hk => hbc k (hab k hk)⟩

theorem mergeStepRel_keepsFields {a b : WState} (h : mergeStepRel a b) :
    keepsFields a b := by
  obtain ⟨u, rfl⟩ := h
  exact fun k hk => getKey_mergeUpdate_ne_none a u k hk

theorem MergeChain.chain' {s : WState} {l : List Snapshot}
    (h : MergeChain s l) :
    List.Chain' mergeStepRel (s :: l.map Snapshot.state) := by
  induction h with
  | nil s => simp
  | cons s snap upd rest heq hrest ih =>
    simp only [List.map_cons]
    exact List.chain'_cons.mpr ⟨⟨upd, heq⟩, ih⟩

theorem MergeChain.pairwise_keepsFields {s : WState} {l : List Snapshot}
    (h : MergeChain s l) :
    List.Pairwise keepsFields (s :: l.map Snapshot.state) :=
  List.chain'_iff_pairwise.mp
    (h.chain'.imp fun _ _ hab => mergeStepRel_keepsFields hab)

end Workflow

namespace Workflow

theorem invokeAction_res_irrel {ρ : Type} (res₁ res₂ : ρ) (cur : Step ρ)
    (state : WState) (h : ∀ f, cur.action ≠ some (ActionFn.withRes f)) :
    invokeAction res₁ cur state = invokeAction res₂ cur state := by
  unfold invokeAction
  cases hc : cur.action with
  | none => rfl
  | some a =>
    cases a with
    | stateOnly f => rfl
    | withRes f => exact absurd hc (h f)

theorem runAuxT_fst {ρ : Type} (m : StateMachine ρ) (res : ρ) :
    ∀ (fuel : Nat) (cur : Step ρ) (state : WState) (snaps : List Snapshot)
      (tr : List (CallRec ρ)),
      (runAuxT m res fuel cur state snaps tr).1 =
        runAux m res fuel cur state snaps := by
  intro fuel
  induction fuel with
  | zero => intro cur state snaps tr; rfl
  | succ n ih =>
    intro cur state snaps tr
    rw [runAuxT, runAux]
    by_cases hterm : cur.kind = StepKind.termination
    · simp [hterm]
    · rw [if_neg hterm, if_neg hterm]
      cases hact : invokeAction res cur state with
      | error e => simp [hact]
      | ok upd =>
        simp only [hact]
        cases htr : lookupTransition m cur.name with
        | none => simp [htr]
        | some t =>
          simp only [htr]
          cases hnx : nextOf m t (mergeUpdate state upd) with
          | error e => simp [hnx]
          | ok next => simp [hnx, ih]

theorem runAuxT_trace {ρ : Type} (m : StateMachine ρ) (res : ρ) :
    ∀ (fuel : Nat) (cur : Step ρ) (state : WState) (snaps : List Snapshot)
      (tr : List (CallRec ρ)),
      (∀ c ∈ tr, c.given = if c.declared then some res else Option.none) →
      ∀ c ∈ (runAuxT m res fuel cur state snaps tr).2,
        c.given = if c.declared then some res else Option.none := by
  intro fuel
  induction fuel with
  | zero => intro cur state snaps tr hinv; exact hinv
  | succ n ih =>
    intro cur state snaps tr hinv
    rw [runAuxT]
    by_cases hterm : cur.kind = StepKind.termination
    · rw [if_pos hterm]; exact hinv
    · rw [if_neg hterm]
      have hinv' : ∀ c ∈ ((match cur.action with
          | Option.none => tr
          | some (ActionFn.stateOnly _) => tr ++ [⟨false, Option.none⟩]
          | some (ActionFn.withRes _) => tr ++ [⟨true, some res⟩] : List (CallRec ρ))),
          c.given = if c.declared then some res else Option.none := by
        cases cur.action with
        | none => exact hinv
        | some a =>
          cases a with
          | stateOnly f =>
            intro c hc
            rcases List.mem_append.mp hc with h1 | h1
            · exact hinv c h1
            · simp only [List.mem_singleton] at h1; subst h1; simp
          | withRes f =>
            intro c hc
            rcases List.mem_append.mp hc with h1 | h1
            · exact hinv c h1
            · simp only [List.mem_singleton] at h1; subst h1; simp
      cases hact : invokeAction res cur state with
      | error e => simp only [hact]; exact hinv'
      | ok upd =>
        simp only [hact]
        cases htr : lookupTransition m cur.name with
        | none => simp only [htr]; exact hinv'
        | some t =>
          simp only [htr]
          cases hnx : nextOf m t (mergeUpdate state upd) with
          | error e => simp only [hnx]; exact hinv'
          | ok next => simp only [hnx]; exact ih _ _ _ _ hinv'

theorem runAux_res_irrel {ρ : Type} (m : StateMachine ρ)
    (hno : ∀ s ∈ m.steps, ∀ f, s.action ≠ some (ActionFn.withRes f))
    (res₁ res₂ : ρ) :
    ∀ (fuel : Nat) (cur : Step ρ) (state : WState) (snaps : List Snapshot),
      cur ∈ m.steps →
      runAux m res₁ fuel cur state snaps = runAux m res₂ fuel cur state snaps := by
  intro fuel
  induction fuel with
  | zero => intro cur state snaps _; rfl
  | succ n ih =>
    intro cur state snaps hmem
    rw [runAux, runAux]
    by_cases hterm : cur.kind = StepKind.termination
    · rw [if_pos hterm, if_pos hterm]
    · rw [if_neg hterm, if_neg hterm,
        invokeAction_res_irrel res₁ res₂ cur state (hno cur hmem)]
      cases hact : invokeAction res₂ cur state with
      | error e => simp [hact]
      | ok upd =>
        simp only [hact]
        cases htr : lookupTransition m cur.name with
        | none => simp [htr]
        | some t =>
          simp only [htr]
          cases hnx : nextOf m t (mergeUpdate state upd) with
          | error e => simp [hnx]
          | ok next => simp only [hnx]; exact ih next _ _ (nextOf_mem hnx)

theorem run_res_irrel {ρ : Type} (m : StateMachine ρ)
    (hno : ∀ s ∈ m.steps, ∀ f, s.action ≠ some (ActionFn.withRes f))
    (res₁ res₂ : ρ) (init : WState) (fuel : Nat) :
    StateMachine.run m init res₁ fuel = StateMachine.run m init res₂ fuel := by
  unfold StateMachine.run
  cases hfind : m.steps.find? (fun s => s.kind == StepKind.entry) with
  | none => rfl
  | some e =>
    simp only
    cases htr : lookupTransition m e.name with
    | none => rfl
    | some t =>
      simp only
      cases hnx : nextOf m t init with
      | error err => rfl
      | ok first =>
        simp only
        exact runAux_res_irrel m hno res₁ res₂ fuel first init [] (nextOf_mem hnx)

theorem runAux_schema_irrel {ρ : Type} (m : StateMachine ρ)
    (sch : List String) (res : ρ) :
    ∀ (fuel : Nat) (cur : Step ρ) (state : WState) (snaps : List Snapshot),
      runAux (⟨sch, m.steps, m.transitions⟩ : StateMachine ρ) res fuel cur state snaps =
        runAux m res fuel cur state snaps := by
  intro fuel
  induction fuel with
  | zero => intro cur state snaps; rfl
  | succ n ih =>
    intro cur state snaps
    rw [runAux, runAux]
    by_cases hterm : cur.kind = StepKind.termination
    · rw [if_pos hterm, if_pos hterm]
    · rw [if_neg hterm, if_neg hterm]
      cases hact : invokeAction res cur state with
      | error e => simp [hact]
      | ok upd =>
        simp only [hact]
        have hlt : lookupTransition (⟨sch, m.steps, m.transitions⟩ : StateMachine ρ) cur.name
            = lookupTransition m cur.name := rfl
        rw [hlt]
        cases htr : lookupTransition m cur.name with
        | none => simp [htr]
        | some t =>
          simp only [htr]
          have hnf : nextOf (⟨sch, m.steps, m.transitions⟩ : StateMachine ρ) t (mergeUpdate state upd)
              = nextOf m t (mergeUpdate state upd) := rfl
          rw [hnf]
          cases hnx : nextOf m t (mergeUpdate state upd) with
          | error e => simp [hnx]
          | ok next => simp only [hnx]; exact ih next _ _

theorem run_schema_irrel {ρ : Type} (m : StateMachine ρ) (sch : List String)
    (init : WState) (res : ρ) (fuel : Nat) :
    StateMachine.run (⟨sch, m.steps, m.transitions⟩ : StateMachine ρ) init res fuel =
      StateMachine.run m init res fuel := by
  show (match m.steps.find? (fun s => s.kind == StepKind.entry) with
    | Option.none => Except.error (EngineError.graphError ("no EntryPoint"))
    | some e =>
      match lookupTransition m e.name with
      | Option.none => Except.error (EngineError.graphError ("dangling step"))
      | some t =>
        match nextOf m t init with
        | Except.error err => Except.error err
        | Except.ok first =>
          runAux (⟨sch, m.steps, m.transitions⟩ : StateMachine ρ) res fuel first init []) =
    StateMachine.run m init res fuel
  unfold StateMachine.run
  cases hfind : m.steps.find? (fun s => s.kind == StepKind.entry) with
  | none => rfl
  | some e =>
    simp only
    cases htr : lookupTransition m e.name with
    | none => rfl
    | some t =>
      simp only
      cases hnx : nextOf m t init with
      | error err => rfl
      | ok first =>
        simp only
        exact runAux_schema_irrel m sch res fuel first init []

end Workflow

namespace Workflow

theorem runAux_succ_normal {ρ : Type} (m : StateMachine ρ) (res : ρ)
    (fuel : Nat) (cur : Step ρ) (state : WState) (snaps : List Snapshot)
    (upd : WState) (t : Transition ρ)
    (hterm : cur.kind ≠ StepKind.termination)
    (hact : invokeAction res cur state = Except.ok upd)
    (htr : lookupTransition m cur.name = some t) :
    runAux m res (fuel + 1) cur state snaps =
      match nextOf m t (mergeUpdate state upd) with
      | Except.error e => Except.error e
      | Except.ok next =>
        runAux m res fuel next (mergeUpdate state upd)
          (snaps ++ [⟨cur.name, mergeUpdate state upd⟩]) := by
  rw [runAux, if_neg hterm, hact]
  simp only
  rw [htr]

theorem nextOf_cond_not_target {ρ : Type} {m : StateMachine ρ}
    {t : Transition ρ} {st : WState} {c : WState → Except PyExn String}
    {chosen : String} (hcond : t.condition = some c)
    (hc : c st = Except.ok chosen)
    (hnot : t.targets.contains chosen = false) :
    nextOf m t st = Except.error EngineError.routingError := by
  unfold nextOf
  rw [hcond]
  simp only
  rw [hc]
  simp only [hnot]
  simp only [Bool.false_eq_true, if_false]

theorem nextOf_cond_target {ρ : Type} {m : StateMachine ρ}
    {t : Transition ρ} {st : WState} {c : WState → Except PyExn String}
    {chosen : String} {next : Step ρ} (hcond : t.condition = some c)
    (hc : c st = Except.ok chosen)
    (hin : t.targets.contains chosen = true)
    (hfind : findStep m chosen = some next) :
    nextOf m t st = Except.ok next := by
  unfold nextOf
  rw [hcond]
  simp only
  rw [hc]
  simp [hin, hfind]
  exact List.mem_of_elem_eq_true hin

/-- Claim C1: a step's returned partial mapping is merged into the running
state with shallow overwrite semantics: every key present in the partial
mapping now maps to the value the partial mapping gives it, every key not
mentioned keeps its previous value; in particular a step returning the
mapping x to 1 on a state mapping x to 0 and y to 2 yields the state
mapping x to 1 and y to 2. -/
theorem C1_merge_shallow_overwrite (state upd : WState)
    (hnd : (upd.map Prod.fst).Nodup) :
    (∀ k v, getKey upd k = some v → getKey (mergeUpdate state upd) k = some v) ∧
    (∀ k, getKey upd k = Option.none →
      getKey (mergeUpdate state upd) k = getKey state k) ∧
    mergeUpdate [("x", Value.int 0), ("y", Value.int 2)] [("x", Value.int 1)]
      = [("x", Value.int 1), ("y", Value.int 2)] :=
  ⟨fun k v h => getKey_mergeUpdate_some state upd k v hnd h,
   fun k h => getKey_mergeUpdate_none state upd k h,
   rfl⟩

/-- Witness for C1 at the concrete P1 instance. -/
theorem C1_merge_shallow_overwrite_witness :
    (([("x", Value.int 1)] : WState).map Prod.fst).Nodup ∧
    mergeUpdate [("x", Value.int 0), ("y", Value.int 2)] [("x", Value.int 1)]
      = [("x", Value.int 1), ("y", Value.int 2)] :=
  ⟨by simp,
   (C1_merge_shallow_overwrite [("x", Value.int 0), ("y", Value.int 2)]
      [("x", Value.int 1)] (by simp)).2.2⟩

/-- Counterexample to claim C2 as stated: the cyclic counter workflow run
from count = 0, max_value = 3 records exactly 3 snapshots of the increment
step (one per execution), not 4. -/
theorem C2_counterexample :
    counter_run = Except.ok counter_run_expected ∧
    (counter_run_expected.snapshots.filter
        (fun s => s.step_name == "increment")).length = 3 ∧
    (3 : Nat) ≠ 4 :=
  ⟨rfl, rfl, by decide⟩

/-- Claim C2 (amended): the cyclic counter workflow run from count = 0,
max_value = 3 produces exactly 3 snapshots of the increment step (one per
execution, counts 1, 2, 3) plus 1 Termination snapshot, 4 snapshots in
total, with final count = 3. -/
theorem C2_counter_loop :
    counter_run = Except.ok counter_run_expected ∧
    (counter_run_expected.snapshots.filter
        (fun s => s.step_name == "increment")).length = 3 ∧
    (counter_run_expected.snapshots.filter
        (fun s => s.step_name == "__termination__")).length = 1 ∧
    counter_run_expected.snapshots.length = 4 ∧
    (counter_run_expected.get_final_state).map (fun st => getKey st ("count"))
      = some (some (Value.int 3)) :=
  ⟨rfl, rfl, rfl, rfl, rfl⟩

/-- Claim C3: along every completed run the state evolves only by
shallow-overwrite merges (consecutive snapshot states are related by
mergeUpdate with some partial update), hence every field present in the
initial state or in any snapshot is still present in all later snapshots:
the engine never deletes a field. -/
theorem C3_fields_never_deleted {ρ : Type} (m : StateMachine ρ)
    (init : WState) (res : ρ) (fuel : Nat) (r : Run)
    (h : StateMachine.run m init res fuel = Except.ok r) :
    List.Chain' mergeStepRel (init :: r.snapshots.map Snapshot.state) ∧
    List.Pairwise keepsFields (init :: r.snapshots.map Snapshot.state) := by
  obtain ⟨_, hchain, _⟩ := run_ok_structure m init res fuel r h
  exact ⟨hchain.chain', hchain.pairwise_keepsFields⟩

/-- Witness for C3 at the concrete counter run. -/
theorem C3_fields_never_deleted_witness :
    List.Chain' mergeStepRel
      ([("count", Value.int 0), ("max_value", Value.int 3)] ::
        counter_run_expected.snapshots.map Snapshot.state) ∧
    List.Pairwise keepsFields
      ([("count", Value.int 0), ("max_value", Value.int 3)] ::
        counter_run_expected.snapshots.map Snapshot.state) :=
  C3_fields_never_deleted counter_machine
    [("count", Value.int 0), ("max_value", Value.int 3)] () 20
    counter_run_expected rfl

end Workflow

namespace Workflow

/-- Claim C4: at a conditional transition the engine evaluates the router
on the state as updated by the just-executed step and takes the returned
step as the next node; if the returned step is not among the declared
targets, the run fails with RoutingError and no Run (hence no snapshot for
that attempted transition) is produced. -/
theorem C4_conditional_routing {ρ : Type} (m : StateMachine ρ) (res : ρ)
    (fuel : Nat) (cur : Step ρ) (state : WState) (snaps : List Snapshot)
    (upd : WState) (t : Transition ρ) (c : WState → Except PyExn String)
    (chosen : String)
    (hterm : cur.kind ≠ StepKind.termination)
    (hact : invokeAction res cur state = Except.ok upd)
    (htr : lookupTransition m cur.name = some t)
    (hcond : t.condition = some c)
    (hc : c (mergeUpdate state upd) = Except.ok chosen) :
    (t.targets.contains chosen = false →
      runAux m res (fuel + 1) cur state snaps =
        Except.error EngineError.routingError ∧
      ∀ r : Run, runAux m res (fuel + 1) cur state snaps ≠ Except.ok r) ∧
    (∀ next : Step ρ, t.targets.contains chosen = true →
      findStep m chosen = some next →
      runAux m res (fuel + 1) cur state snaps =
        runAux m res fuel next (mergeUpdate state upd)
          (snaps ++ [⟨cur.name, mergeUpdate state upd⟩])) := by
  constructor
  · intro hnot
    have heq : runAux m res (fuel + 1) cur state snaps =
        Except.error EngineError.routingError := by
      rw [runAux_succ_normal m res fuel cur state snaps upd t hterm hact htr,
        nextOf_cond_not_target hcond hc hnot]
    exact ⟨heq, fun r hr => by rw [heq] at hr; cases hr⟩
  · intro next hin hfind
    rw [runAux_succ_normal m res fuel cur state snaps upd t hterm hact htr,
      nextOf_cond_target hcond hc hin hfind]

/-- Witness for C4 at the bad-router graph: after step "a" executes on the
empty state, its router returns "nowhere", which is not among the declared
targets, and the loop fails with RoutingError. -/
theorem C4_conditional_routing_witness :
    bad_router ([]) = Except.ok ("nowhere") ∧
    runAux bad_router_machine () 5 step_a [] [] =
      Except.error EngineError.routingError ∧
    bad_router_run = Except.error EngineError.routingError :=
  ⟨rfl,
   ((C4_conditional_routing bad_router_machine () 4 step_a [] [] []
      ⟨"a", ["a", "__termination__"], some bad_router⟩ bad_router
      ("nowhere") (by decide) rfl rfl rfl rfl).1 rfl).1,
   rfl⟩

/-- Claim C5: every completed run has a non-empty snapshot list, the last
snapshot is a Termination snapshot, and get_final_state returns exactly
the state payload carried by the last snapshot. -/
theorem C5_final_state {ρ : Type} (m : StateMachine ρ) (init : WState)
    (res : ρ) (fuel : Nat) (r : Run)
    (h : StateMachine.run m init res fuel = Except.ok r) :
    r.snapshots ≠ [] ∧
    ∃ last, r.snapshots.getLast? = some last ∧
      Run.get_final_state r = some last.state ∧
      isTerminationName m last.step_name := by
  obtain ⟨hne, _, last, hlast, hterm⟩ := run_ok_structure m init res fuel r h
  refine ⟨hne, last, hlast, ?_, hterm⟩
  unfold Run.get_final_state
  rw [hlast]
  rfl

/-- Witness for C5 at the concrete counter run. -/
theorem C5_final_state_witness :
    counter_run_expected.snapshots ≠ [] ∧
    ∃ last, counter_run_expected.snapshots.getLast? = some last ∧
      Run.get_final_state counter_run_expected = some last.state ∧
      isTerminationName counter_machine last.step_name :=
  C5_final_state counter_machine
    [("count", Value.int 0), ("max_value", Value.int 3)] () 20
    counter_run_expected rfl

/-- Claim C6: an exception raised inside a step's action during the run is
not caught by the engine: the run fails with exactly that application
error, and no Run object is returned at such a configuration. -/
theorem C6_exception_propagation {ρ : Type} (m : StateMachine ρ) (res : ρ)
    (fuel : Nat) (cur : Step ρ) (state : WState) (snaps : List Snapshot)
    (e : PyExn)
    (hterm : cur.kind ≠ StepKind.termination)
    (hact : invokeAction res cur state =
      Except.error (EngineError.appError e)) :
    runAux m res (fuel + 1) cur state snaps =
      Except.error (EngineError.appError e) ∧
    ∀ r : Run, runAux m res (fuel + 1) cur state snaps ≠ Except.ok r := by
  have heq : runAux m res (fuel + 1) cur state snaps =
      Except.error (EngineError.appError e) := by
    rw [runAux, if_neg hterm, hact]
  exact ⟨heq, fun r hr => by rw [heq] at hr; cases hr⟩

/-- Witness for C6: the increment step invoked on a state missing the
count field raises a KeyError, which propagates out of the loop. -/
theorem C6_exception_propagation_witness :
    invokeAction () increment_step [] =
      Except.error (EngineError.appError ⟨"KeyError: count"⟩) ∧
    runAux counter_machine () 5 increment_step [] [] =
      Except.error (EngineError.appError ⟨"KeyError: count"⟩) :=
  ⟨rfl,
   (C6_exception_propagation counter_machine () 4 increment_step [] []
      ⟨"KeyError: count"⟩ (by decide) rfl).1⟩

/-- Claim C7: a registered non-Termination step with no registered
outgoing transition makes run fail with GraphError when execution reaches
it; building such a graph via add_steps and connect succeeds. -/
theorem C7_dangling_step {ρ : Type} (m : StateMachine ρ) (res : ρ)
    (fuel : Nat) (cur : Step ρ) (state : WState) (snaps : List Snapshot)
    (upd : WState)
    (hterm : cur.kind ≠ StepKind.termination)
    (hact : invokeAction res cur state = Except.ok upd)
    (hdangling : lookupTransition m cur.name = Option.none) :
    runAux m res (fuel + 1) cur state snaps =
      Except.error (EngineError.graphError ("dangling step")) ∧
    dangling_workflow = Except.ok dangling_machine ∧
    dangling_run = Except.error (EngineError.graphError ("dangling step")) := by
  refine ⟨?_, rfl, rfl⟩
  rw [runAux, if_neg hterm, hact]
  simp only
  rw [hdangling]

/-- Witness for C7 at the dangling graph: execution reaches the dangling
step "a" and fails. -/
theorem C7_dangling_step_witness :
    invokeAction () step_a [] = Except.ok [] ∧
    runAux dangling_machine () 5 step_a [] [] =
      Except.error (EngineError.graphError ("dangling step")) :=
  ⟨rfl,
   (C7_dangling_step dangling_machine () 4 step_a [] [] []
      (by decide) rfl rfl).1⟩

end Workflow

namespace Workflow

/-- Resource handle used by the C9 witness. -/
def sample_handle : String := "HANDLE"

/-- Claim C9: during any run every action invocation receives exactly the
resources object that was passed to run when the step declared the
dependency, and is invoked with the state alone otherwise (the
instrumented loop records every invocation and projects back onto the
engine's run); moreover, for a graph none of whose steps declares the
dependency, the run result does not depend on the resources object at
all, so the engine itself never feeds it into state or snapshots. -/
theorem C9_resource_passthrough {ρ : Type} (m : StateMachine ρ)
    (init : WState) (res : ρ) (fuel : Nat) :
    (∀ c ∈ (runT m init res fuel).2,
      c.given = if c.declared then some res else Option.none) ∧
    (runT m init res fuel).1 = StateMachine.run m init res fuel ∧
    (∀ res₂ : ρ, (∀ s ∈ m.steps, ∀ f, s.action ≠ some (ActionFn.withRes f)) →
      StateMachine.run m init res fuel = StateMachine.run m init res₂ fuel) := by
  refine ⟨?_, ?_, fun res₂ hno => run_res_irrel m hno res res₂ init fuel⟩
  · unfold runT
    cases hfind : m.steps.find? (fun s => s.kind == StepKind.entry) with
    | none => simp
    | some e =>
      simp only
      cases htr : lookupTransition m e.name with
      | none => simp
      | some t =>
        simp only
        cases hnx : nextOf m t init with
        | error err => simp
        | ok first =>
          simp only
          exact runAuxT_trace m res fuel first init [] [] (by simp)
  · unfold runT StateMachine.run
    cases hfind : m.steps.find? (fun s => s.kind == StepKind.entry) with
    | none => rfl
    | some e =>
      simp only
      cases htr : lookupTransition m e.name with
      | none => rfl
      | some t =>
        simp only
        cases hnx : nextOf m t init with
        | error err => rfl
        | ok first =>
          simp only
          exact runAuxT_fst m res fuel first init [] []

/-- Witness for C9 at the resource graph: the single invocation of the
resource-using step received exactly the handle passed to run. -/
theorem C9_resource_passthrough_witness :
    (runT resource_machine [] sample_handle 10).2 =
      [⟨true, some sample_handle⟩] ∧
    (⟨true, some sample_handle⟩ : CallRec String).given =
      (if (⟨true, some sample_handle⟩ : CallRec String).declared
        then some sample_handle else Option.none) :=
  ⟨rfl,
   (C9_resource_passthrough resource_machine [] sample_handle 10).1
     ⟨true, some sample_handle⟩ (List.mem_singleton.mpr rfl)⟩

/-- Claim C10: run performs no schema validation of the initial state: the
declared schema plays no role in execution, and the basic linear workflow
run from the strict schema subset mapping input to 4 (its schema also
declares output, absent from the initial state) completes normally, the
missing field appearing in snapshots only once a step produces it. -/
theorem C10_subset_initial_state {ρ : Type} (m : StateMachine ρ)
    (sch : List String) (init : WState) (res : ρ) (fuel : Nat) :
    StateMachine.run (⟨sch, m.steps, m.transitions⟩ : StateMachine ρ) init res fuel
      = StateMachine.run m init res fuel ∧
    basic_machine.schema = ["input", "output"] ∧
    getKey [("input", Value.int 4)] ("output") = Option.none ∧
    basic_run = Except.ok basic_run_expected ∧
    (basic_run_expected.get_final_state).map (fun st => getKey st ("output"))
      = some (some (Value.int 10)) :=
  ⟨run_schema_irrel m sch init res fuel, rfl, rfl, rfl, rfl⟩

end Workflow
